import Mathlib

/-!
# Verification of `cargo-local-install` (src/lib.rs) against its specification

This file shallowly embeds the core of `cargo-local-install`'s `src/lib.rs`:
the install-request data model, the staleness / skip decision of the main
install loop in `run_from_strs`, the flag-sorting and fingerprint pipeline,
the invocation-trace construction of `Install::install`, and the stderr
line filter `filter_stderr`.  Rust `OsString`s are modelled as `String`s,
file modification times as `Option Nat` supplied by an oracle
`mtime : String → Option Nat` (`none` = the timestamp is unavailable), and
the fallible effects of one `Install::install` call (spawn, exit status,
publish) are abstracted into an oracle `outcome : Install → Bool`.
-/

namespace CargoLocalInstall

/-- One pass-through flag together with its argument list
(`struct InstallFlag { flag, args }` in lib.rs). -/
structure InstallFlag where
  flag : String
  args : List String
deriving DecidableEq, Repr

/-- One install request (`struct Install { name, flags }` in lib.rs). -/
structure Install where
  name  : String
  flags : List InstallFlag
deriving DecidableEq, Repr

/-- `Install::is_local`: the request is local iff some flag is `--path`
(lib.rs line 54). -/
def Install.is_local (i : Install) : Bool :=
  i.flags.any (fun fl => fl.flag == "--path")

/-- `Install::is_remote`: the negation of `is_local` (lib.rs line 55). -/
def Install.is_remote (i : Install) : Bool :=
  !i.is_local

/-- An install set (`struct InstallSet { bin, src, installs }` in lib.rs):
a destination `bin` directory, an optional origin manifest path `src`,
and the requests. -/
structure InstallSet where
  bin      : String
  src      : Option String
  installs : List Install
deriving DecidableEq, Repr

/-- `InstallSet::any_local` (lib.rs line 43). -/
def InstallSet.any_local (s : InstallSet) : Bool :=
  s.installs.any Install.is_local

/-- `InstallSet::any_remote` (lib.rs line 44). -/
def InstallSet.any_remote (s : InstallSet) : Bool :=
  s.installs.any Install.is_remote

/-- The path of the freshness marker: `set.bin.join(".built")`
(lib.rs line 267). -/
def InstallSet.builtPath (s : InstallSet) : String :=
  s.bin ++ "/.built"

/-- The `up_to_date` computation of `run_from_strs` (lib.rs lines 269-288):
`false` when the set has no remote request or no origin; otherwise compare
the origin's mtime with the marker's mtime, strict `<`, and treat a missing
timestamp as not up to date.  `mtime` is the filesystem oracle
(`metadata().ok().and_then(|m| m.modified().ok())`). -/
def computeUpToDate (mtime : String → Option Nat) (s : InstallSet) : Bool :=
  if !s.any_remote then
    false
  else
    match s.src with
    | some src =>
      match mtime src, mtime s.builtPath with
      | some srcMod, some builtMod => decide (srcMod < builtMod)
      | _, _ => false
    | none => false

/-- The per-set install loop of `run_from_strs` (lib.rs lines 290-296):
requests run in order; a remote request is skipped when the set is up to
date; `install.install(context)?` propagates the first failure, so a
failing request ends the loop.  Returns the requests for which
`Install::install` was actually called, and whether the loop completed
without error. -/
def runSetInstalls (outcome : Install → Bool) (upToDate : Bool) :
    List Install → List Install × Bool
  | [] => ([], true)
  | i :: rest =>
    if i.is_remote && upToDate then
      runSetInstalls outcome upToDate rest
    else if outcome i then
      (i :: (runSetInstalls outcome upToDate rest).1,
       (runSetInstalls outcome upToDate rest).2)
    else
      ([i], false)

/-- What processing one install set produced. -/
structure SetOutcome where
  /-- The requests for which `Install::install` was called, in order. -/
  attempted : List Install
  /-- Whether `<bin>/.built` was written at the end of the cycle. -/
  markerWritten : Bool
  /-- Whether the set completed without a propagated error. -/
  ok : Bool
deriving DecidableEq, Repr

/-- Processing of one install set in `run_from_strs` (lib.rs lines
261-300): an empty set is skipped (`continue`) before the assert; a set
that is up to date with no local request is skipped entirely (the
`continue` at line 283, reachable only when `up_to_date` holds); otherwise
the install loop runs and, if it completed, the marker is written exactly
when `any_remote && set.src.is_some()` (lib.rs lines 297-299). -/
def processSet (outcome : Install → Bool) (mtime : String → Option Nat)
    (s : InstallSet) : SetOutcome :=
  if s.installs.isEmpty then ⟨[], false, true⟩
  else
    let upToDate := computeUpToDate mtime s
    if upToDate && !s.any_local then ⟨[], false, true⟩
    else
      let r := runSetInstalls outcome upToDate s.installs
      ⟨r.1, r.2 && s.any_remote && s.src.isSome, r.2⟩

/-- The outer loop of `run_from_strs` over install sets (lib.rs lines
261-300): the `?` on `install.install(context)` propagates the first error
out of `run_from_strs`, so a failing set ends the whole run.  Returns all
attempted requests, in order, and whether the run succeeded. -/
def processSets (outcome : Install → Bool) (mtime : String → Option Nat) :
    List InstallSet → List Install × Bool
  | [] => ([], true)
  | s :: rest =>
    let r := processSet outcome mtime s
    if r.ok then
      (r.attempted ++ (processSets outcome mtime rest).1,
       (processSets outcome mtime rest).2)
    else
      (r.attempted, false)

/-- Three-way comparison of characters by code point, modelling Rust's
byte-wise comparison of UTF-8 strings (UTF-8 byte order coincides with
code-point order). -/
def charCmp (a b : Char) : Ordering :=
  compare a.toNat b.toNat

/-- Lexicographic comparison of lists from an element comparison, modelling
Rust's derived `Ord` on slices and `Vec` (a strict prefix is smaller). -/
def lexCmp (cmp : α → α → Ordering) : List α → List α → Ordering
  | [], [] => .eq
  | [], _ :: _ => .lt
  | _ :: _, [] => .gt
  | x :: xs, y :: ys =>
    match cmp x y with
    | .eq => lexCmp cmp xs ys
    | o => o

/-- Comparison of strings, modelling Rust's `OsString` ordering. -/
def strCmp (a b : String) : Ordering :=
  lexCmp charCmp a.data b.data

/-- Comparison of argument vectors (`Vec<OsString>`). -/
def argsCmp (a b : List String) : Ordering :=
  lexCmp strCmp a b

/-- Rust's `#[derive(PartialOrd, Ord)]` on `InstallFlag`: lexicographic on
the `flag` field first, then on `args`. -/
def flagCmp (x y : InstallFlag) : Ordering :=
  match strCmp x.flag y.flag with
  | .eq => argsCmp x.args y.args
  | o => o

/-- The non-strict order induced by `flagCmp`, used for sorting. -/
def flagLe (x y : InstallFlag) : Prop :=
  flagCmp x y ≠ .gt

instance : DecidableRel flagLe := fun x y =>
  inferInstanceAs (Decidable (flagCmp x y ≠ .gt))

/-- Model of `Vec::sort` on the flag vector (lib.rs lines 250 and 255):
a stable sort by the derived order.  (`Vec::sort` is a stable merge sort;
for a total order any stable sort produces this same list.) -/
def sortFlags (l : List InstallFlag) : List InstallFlag :=
  List.insertionSort flagLe l

/-- A lawful three-way comparison: it detects equality, is antisymmetric
under `Ordering.swap`, and its induced `≤` is transitive. -/
structure LawfulCmp (cmp : α → α → Ordering) : Prop where
  eq_iff : ∀ a b, cmp a b = .eq ↔ a = b
  cmp_swap : ∀ a b, cmp b a = (cmp a b).swap
  le_trans : ∀ a b c, cmp a b ≠ .gt → cmp b c ≠ .gt → cmp a c ≠ .gt

/-- Rust `Debug` escaping of one character inside a double-quoted string
(`char::escape_debug` as used by `{:?}` on strings: quote and backslash
escaped, the common control characters by letter, other control characters
as a `\u` escape; printable characters kept as-is). -/
def escapeDebugChar (c : Char) : String :=
  if c = '"' then "\\\""
  else if c = '\\' then "\\\\"
  else if c = '\n' then "\\n"
  else if c = '\r' then "\\r"
  else if c = '\t' then "\\t"
  else if c.toNat = 0 then "\\0"
  else if c.toNat < 0x20 || c.toNat = 0x7f then
    "\\u\x7b" ++ String.mk (Nat.toDigits 16 c.toNat) ++ "\x7d"
  else
    String.mk [c]

/-- Rust `{:?}` (Debug) rendering of an `OsString`: the text wrapped in
double quotes with `escapeDebugChar` applied to every character. -/
def rustDebug (s : String) : String :=
  "\"" ++ String.join (s.data.map escapeDebugChar) ++ "\""

/-- The trace accumulated by the flag loop of `Install::install` (lib.rs
lines 320-330): starting from `"cargo install"`, append `" <flag>"` for
each flag and `" <arg:?>"` (Debug form) for each of its arguments. -/
def traceBase (i : Install) : String :=
  i.flags.foldl
    (fun t fl =>
      fl.args.foldl (fun t a => t ++ " " ++ rustDebug a) (t ++ " " ++ fl.flag))
    "cargo install"

/-- `trace_for_hash` (lib.rs line 334): the flag trace, the literal
`" -- "`, and the target name — before `--root` and `--color always` are
appended to the real trace. -/
def traceForHash (i : Install) : String :=
  traceBase i ++ " -- " ++ i.name

/-- C9's reading of the spec sentence, for comparison: the same trace with
every argument rendered verbatim instead of Debug-quoted. -/
def traceClaimVerbatim (i : Install) : String :=
  "cargo install" ++
    String.join (i.flags.map
      (fun fl => " " ++ fl.flag ++ String.join (fl.args.map (fun a => " " ++ a)))) ++
    " -- " ++ i.name

/-- The corrected rendering: pairs rendered as `" <flag> <dbg(arg)>..."`
with Debug-quoted arguments. -/
def traceSpecDebug (i : Install) : String :=
  "cargo install" ++
    String.join (i.flags.map
      (fun fl => " " ++ fl.flag ++
        String.join (fl.args.map (fun a => " " ++ rustDebug a)))) ++
    " -- " ++ i.name

/-- `2^64`, the modulus of Rust's `u64` arithmetic. -/
def M64 : Nat := 2 ^ 64

/-- Wrapping 64-bit addition (`u64::wrapping_add`). -/
def wadd (a b : Nat) : Nat := (a + b) % M64

/-- 64-bit left rotation (`u64::rotate_left`). -/
def rotl (x r : Nat) : Nat := ((x <<< r) % M64) ||| (x >>> (64 - r))

/-- The four SipHash state words. -/
structure SipState where
  v0 : Nat
  v1 : Nat
  v2 : Nat
  v3 : Nat

/-- One SipHash round (`SIPROUND`). -/
def sipRound (s : SipState) : SipState :=
  let v0 := wadd s.v0 s.v1
  let v1 := rotl s.v1 13
  let v1 := v1 ^^^ v0
  let v0 := rotl v0 32
  let v2 := wadd s.v2 s.v3
  let v3 := rotl s.v3 16
  let v3 := v3 ^^^ v2
  let v0 := wadd v0 v3
  let v3 := rotl v3 21
  let v3 := v3 ^^^ v0
  let v2 := wadd v2 v1
  let v1 := rotl v1 17
  let v1 := v1 ^^^ v2
  let v2 := rotl v2 32
  ⟨v0, v1, v2, v3⟩

/-- SipHash-2-4 compression of one 64-bit message word. -/
def sipCompress (s : SipState) (m : Nat) : SipState :=
  let s := { s with v3 := s.v3 ^^^ m }
  let s := sipRound (sipRound s)
  { s with v0 := s.v0 ^^^ m }

/-- Little-endian value of a byte list (first byte least significant). -/
def leWord (bs : List Nat) : Nat :=
  bs.foldr (fun b acc => b + 256 * acc) 0

/-- Split a byte list into full 8-byte little-endian words plus the
remainder of fewer than 8 bytes. -/
def toWords : List Nat → List Nat × List Nat
  | b0 :: b1 :: b2 :: b3 :: b4 :: b5 :: b6 :: b7 :: rest =>
    let (ws, rem) := toWords rest
    (leWord [b0, b1, b2, b3, b4, b5, b6, b7] :: ws, rem)
  | rest => ([], rest)

/-- SipHash-2-4 of a byte string with key `(k0, k1)`; the deprecated
`std::hash::SipHasher::new()` used by `Install::install` is SipHash-2-4
with a zero key. -/
def siphash24 (k0 k1 : Nat) (bytes : List Nat) : Nat :=
  let st : SipState :=
    ⟨0x736f6d6570736575 ^^^ k0, 0x646f72616e646f6d ^^^ k1,
     0x6c7967656e657261 ^^^ k0, 0x7465646279746573 ^^^ k1⟩
  let (ws, rem) := toWords bytes
  let st := ws.foldl sipCompress st
  let b := ((bytes.length % 256) * 2 ^ 56 + leWord rem) % M64
  let st := sipCompress st b
  let st := { st with v2 := st.v2 ^^^ 0xff }
  let st := sipRound (sipRound (sipRound (sipRound st)))
  (st.v0 ^^^ st.v1 ^^^ st.v2 ^^^ st.v3) % M64

/-- UTF-8 encoding of one character, as a list of byte values. -/
def utf8EncodeCharNat (c : Char) : List Nat :=
  let n := c.toNat
  if n < 0x80 then [n]
  else if n < 0x800 then
    [0xC0 ||| (n >>> 6), 0x80 ||| (n &&& 0x3F)]
  else if n < 0x10000 then
    [0xE0 ||| (n >>> 12), 0x80 ||| ((n >>> 6) &&& 0x3F), 0x80 ||| (n &&& 0x3F)]
  else
    [0xF0 ||| (n >>> 18), 0x80 ||| ((n >>> 12) &&& 0x3F),
     0x80 ||| ((n >>> 6) &&& 0x3F), 0x80 ||| (n &&& 0x3F)]

/-- UTF-8 bytes of a string (Rust's `str::as_bytes`). -/
def utf8Bytes (s : String) : List Nat :=
  s.data.foldr (fun c acc => utf8EncodeCharNat c ++ acc) []

/-- The 64-bit fingerprint of an install request (lib.rs lines 332-338):
Rust's `Hash` for `str` feeds the UTF-8 bytes followed by a `0xff`
terminator byte into the hasher. -/
def fingerprintHash (i : Install) : Nat :=
  siphash24 0 0 (utf8Bytes (traceForHash i) ++ [0xff])

/-- One lowercase hexadecimal digit. -/
def hexDigit (n : Nat) : Char :=
  if n < 10 then Char.ofNat (48 + n) else Char.ofNat (87 + n)

/-- `format!("\x7b:016x\x7d", n)` for `n < 2^64`: exactly 16 lowercase hex
digits, zero padded, most significant first. -/
def hex16 (n : Nat) : String :=
  String.mk ((List.range 16).map (fun k => hexDigit (n / 16 ^ (15 - k) % 16)))

/-- The cache key of an install request: the fingerprint rendered as fixed
width lowercase hex (lib.rs line 337). -/
def fingerprint (i : Install) : String :=
  hex16 (fingerprintHash i)

/-- When every `Install::install` call succeeds, the per-set loop attempts
exactly the requests that are not skipped by the staleness check, in
order. -/
theorem runSetInstalls_all_ok (outcome : Install → Bool) (u : Bool)
    (hall : ∀ i, outcome i = true) :
    ∀ l, runSetInstalls outcome u l =
      (l.filter (fun i => !(i.is_remote && u)), true) := by
  intro l
  induction l with
  | nil => rfl
  | cons i rest ih =>
    simp only [runSetInstalls, List.filter_cons]
    by_cases hski : (i.is_remote && u) = true
    · simp [hski, ih]
    · simp [hski, hall i, ih]

/-- Logging verbosity (`enum LogMode` in lib.rs). -/
inductive LogMode
  | quiet
  | normal
  | verbose
deriving DecidableEq, Repr

/-- The mutable state of the argument loop of `run_from_strs` (lib.rs
lines 136-145), with the defaults set there. -/
structure ParseState where
  dry_run      : Bool := false
  path_warning : Bool := true
  log_mode     : LogMode := .normal
  locked       : Option Bool := none
  dst_bin      : String := "bin"
  target_dir   : Option String := none
  path         : Option String := none
  options      : List InstallFlag := []
  crates       : List String := []
deriving DecidableEq, Repr

/-- The argument loop of `run_from_strs` (lib.rs lines 147-212).  Paths are
strings, `PathBuf::join` is rendered as `/`-concatenation, and
`canonicalize` (a filesystem call) is an oracle.  `Except.ok none` models
the `--help` early return; pass-through flags are accumulated in `options`
in input order, one entry per occurrence. -/
def parseArgs (canon : String → Except String String) :
    List String → ParseState → Except String (Option ParseState)
  | [], st => .ok (some st)
  | arg :: rest, st =>
    match arg with
    | "--help" => .ok none
    | "--locked" => parseArgs canon rest { st with locked := some true }
    | "--unlocked" => parseArgs canon rest { st with locked := some false }
    | "--root" =>
      match rest with
      | [] => .error "--root must specify a directory"
      | d :: rest2 => parseArgs canon rest2 { st with dst_bin := d ++ "/bin" }
    | "--out-bin" =>
      match rest with
      | [] => .error "--out-bin must specify a directory"
      | d :: rest2 => parseArgs canon rest2 { st with dst_bin := d }
    | "--target-dir" =>
      match rest with
      | [] => .error "--target-dir must specify a directory"
      | d :: rest2 =>
        match canon d with
        | .error e => .error e
        | .ok d2 => parseArgs canon rest2 { st with target_dir := some d2 }
    | "--path" =>
      match rest with
      | [] => .error "--path must specify a directory"
      | d :: rest2 =>
        match canon d with
        | .error e => .error e
        | .ok d2 => parseArgs canon rest2 { st with path := some d2 }
    | "--list" => .error "not yet implemented: --list"
    | "--no-track" => .error "not yet implemented: --no-track"
    | "-Z" => .error "not yet implemented: -Z flags"
    | "--frozen" => .error "not yet implemented: --frozen"
    | "--offline" => .error "not yet implemented: --offline"
    | "--dry-run" => parseArgs canon rest { st with dry_run := true }
    | "--no-path-warning" => parseArgs canon rest { st with path_warning := false }
    | "-q" | "--quiet" =>
      parseArgs canon rest
        { st with log_mode := .quiet, options := st.options ++ [⟨arg, []⟩] }
    | "-v" | "--verbose" =>
      parseArgs canon rest
        { st with log_mode := .verbose, options := st.options ++ [⟨arg, []⟩] }
    | "-j" | "--jobs" | "-f" | "--force" | "--all-features"
    | "--no-default-features" | "--debug" | "--bins" | "--examples" =>
      parseArgs canon rest { st with options := st.options ++ [⟨arg, []⟩] }
    | "--version" | "--git" | "--branch" | "--tag" | "--rev" | "--profile"
    | "--target" | "--index" | "--registry" | "--color" =>
      match rest with
      | [] => .error (arg ++ " requires an argument")
      | a2 :: rest2 =>
        parseArgs canon rest2 { st with options := st.options ++ [⟨arg, [a2]⟩] }
    | "--features" => .error "not yet implemented: --features"
    | "--bin" => .error "not yet implemented: --bin"
    | "--example" => .error "not yet implemented: --example"
    | "--" => .ok (some { st with crates := st.crates ++ rest })
    | other =>
      if other.data.head? = some '-' then
        .error ("unrecognized flag: " ++ other)
      else
        parseArgs canon rest { st with crates := st.crates ++ [other] }

/-- Lines 216-257 of `run_from_strs`: push `--locked` when requested,
build the install sets (one set from the command-line crates, otherwise
the manifest collaborator's sets), reject an empty list, append the
`--target-dir` flag (defaulting under `home`) and the canonicalized
`--path` flag to the shared options, sort the options (line 250), and give
every install its flags, extended and sorted (lines 252-257). -/
def buildSets (canon : String → Except String String) (home : String)
    (manifestSets : List InstallSet) (st : ParseState) :
    Except String (List InstallSet) :=
  let locked := st.locked.getD false
  let options := if locked then st.options ++ [⟨"--locked", []⟩] else st.options
  let installs :=
    if st.crates.isEmpty then manifestSets
    else [{ bin := st.dst_bin, src := none,
            installs := st.crates.map (fun c => { name := c, flags := [] }) }]
  if installs.isEmpty then .error "no crates specified"
  else
    let global_dir := home ++ "/.cargo/local-install"
    match (match st.target_dir with
           | none => Except.ok (global_dir ++ "/target")
           | some td => canon td) with
    | .error e => .error e
    | .ok target_dir =>
      let options := options ++ [⟨"--target-dir", [target_dir]⟩]
      match ((match st.path with
             | none => Except.ok options
             | some p =>
               match canon p with
               | .error e => Except.error e
               | .ok p2 => Except.ok (options ++ [⟨"--path", [p2]⟩])) :
          Except String (List InstallFlag)) with
      | .error e => .error e
      | .ok options2 =>
        let sorted := sortFlags options2
        .ok (installs.map (fun set =>
          { set with installs := set.installs.map (fun i =>
              { i with flags := sortFlags (i.flags ++ sorted) }) }))

/-- The whole pre-dispatch pipeline of `run_from_strs`: parse the
arguments, then build the install sets whose flags the per-install loop
will fingerprint.  `Except.ok none` is the `--help` path. -/
def prepare (canon : String → Except String String) (home : String)
    (manifestSets : List InstallSet) (args : List String) :
    Except String (Option (List InstallSet)) :=
  match parseArgs canon args {} with
  | .error e => .error e
  | .ok none => .ok none
  | .ok (some st) =>
    match buildSets canon home manifestSets st with
    | .error e => .error e
    | .ok sets => .ok (some sets)

/-- One suppression rule of the stderr filter (`struct Ignore` in lib.rs):
an ASCII prefix, the same prefix with ANSI color codes, and a suffix. -/
structure Ignore where
  pre  : String
  prec : String
  post : String

/-- The suppression table (`static IGNORE`, lib.rs lines 417-431). -/
def IGNORE : List Ignore := [
  ⟨"     Ignored package `",
   "\x1B[0m\x1B[0m\x1B[1m\x1B[32m     Ignored\x1B[0m package `",
   "` is already installed, use --force to override"⟩,
  ⟨"warning: be sure to add `",
   "\x1B[0m\x1B[0m\x1B[1m\x1B[33mwarning\x1B[0m\x1B[1m:\x1B[0m be sure to add `",
   "` to your PATH to be able to run the installed binaries"⟩,
  ⟨"   Replacing ",
   "\x1B[0m\x1B[0m\x1B[1m\x1B[32m   Replacing\x1B[0m ",
   ""⟩,
  ⟨"    Replaced ",
   "\x1B[0m\x1B[0m\x1B[1m\x1B[32m    Replaced\x1B[0m ",
   ""⟩,
  ⟨"    Finished ",
   "\x1B[0m\x1B[0m\x1B[1m\x1B[32m    Finished\x1B[0m ",
   ""⟩]

/-- The suppression test of `filter_stderr` (lib.rs line 440): a line is
dropped iff some rule's suffix ends it and one of the rule's two prefix
variants starts it.  Lines are lists of characters. -/
def suppressLine (line : List Char) : Bool :=
  IGNORE.any (fun ig =>
    ig.post.data.isSuffixOf line &&
      (ig.pre.data.isPrefixOf line || ig.prec.data.isPrefixOf line))

/-- `BufRead::lines` strips one trailing `'\r'` from a line that ended in
`"\r\n"`. -/
def stripCR (l : List Char) : List Char :=
  if l.getLast? = some '\r' then l.dropLast else l

/-- Split a character stream the way `BufReader::lines` does: pieces are
separated by `'\n'` (with a trailing `'\r'` stripped from each separated
piece), and a final non-empty fragment without a terminator is yielded
as a line, unstripped. -/
def splitLinesAux : List Char → List Char → List (List Char)
  | cur, [] => if cur.isEmpty then [] else [cur]
  | cur, c :: rest =>
    if c = '\n' then stripCR cur :: splitLinesAux [] rest
    else splitLinesAux (cur ++ [c]) rest

/-- All lines of a stream. -/
def splitLines (s : List Char) : List (List Char) :=
  splitLinesAux [] s

/-- Forward one completed line unless the suppression table matches it
(the loop body of `filter_stderr`, lib.rs lines 438-442). -/
def emitLine (out : List (List Char)) (line : List Char) : List (List Char) :=
  if suppressLine line then out else out ++ [line]

/-- Consume one character of the subprocess's stderr: a newline completes
the pending line and runs it through the filter; anything else is buffered. -/
def feedChar (st : List Char × List (List Char)) (c : Char) :
    List Char × List (List Char) :=
  if c = '\n' then ([], emitLine st.2 (stripCR st.1))
  else (st.1 ++ [c], st.2)

/-- Consume one chunk of the stream. -/
def feedChunk (st : List Char × List (List Char)) (chunk : List Char) :
    List Char × List (List Char) :=
  chunk.foldl feedChar st

/-- Consume a stream delivered as arbitrary chunks. -/
def runChunks (chunks : List (List Char)) : List Char × List (List Char) :=
  chunks.foldl feedChunk ([], [])

/-- At end of stream `BufReader::lines` yields the pending unterminated
fragment (if non-empty) as a final line, which goes through the same
filter test. -/
def finishStream (st : List Char × List (List Char)) : List (List Char) :=
  if st.1.isEmpty then st.2 else emitLine st.2 st.1

/-- `filter_stderr` (lib.rs lines 437-444) over a chunked stderr stream:
the sequence of lines that are forwarded by `eprintln!`. -/
def filter_stderr (chunks : List (List Char)) : List (List Char) :=
  finishStream (runChunks chunks)

/-- In a lawful comparison, `lt` composed with `≤` stays `lt`. -/
theorem LawfulCmp.lt_le {cmp : α → α → Ordering} (h : LawfulCmp cmp)
    {a b c : α} (h1 : cmp a b = .lt) (h2 : cmp b c ≠ .gt) : cmp a c = .lt := by
  cases hac : cmp a c with
  | lt => rfl
  | eq =>
    have hca : a = c := (h.eq_iff a c).mp hac
    subst hca
    exact absurd (by rw [h.cmp_swap a b, h1]; rfl) h2
  | gt =>
    have hca : cmp c a = .lt := by rw [h.cmp_swap a c, hac]; rfl
    have h3 : cmp c b ≠ .gt :=
      h.le_trans c a b (by rw [hca]; simp) (by rw [h1]; simp)
    cases hbc : cmp b c with
    | gt => exact absurd hbc h2
    | lt =>
      have : cmp c b = .gt := by rw [h.cmp_swap b c, hbc]; rfl
      exact absurd this h3
    | eq =>
      have hbceq : b = c := (h.eq_iff b c).mp hbc
      subst hbceq
      rw [h1] at hac
      cases hac

/-- `charCmp` is a lawful comparison. -/
theorem lawful_charCmp : LawfulCmp charCmp := by
  refine ⟨?_, ?_, ?_⟩
  · intro a b
    unfold charCmp
    rw [Nat.compare_eq_eq]
    constructor
    · intro hn
      have hc := congrArg Char.ofNat hn
      rwa [Char.ofNat_toNat, Char.ofNat_toNat] at hc
    · intro hn
      rw [hn]
  · intro a b
    unfold charCmp
    exact (Nat.compare_swap a.toNat b.toNat).symm
  · intro a b c h1 h2
    unfold charCmp at h1 h2 ⊢
    rw [Nat.compare_ne_gt] at h1 h2 ⊢
    exact Nat.le_trans h1 h2

/-- An empty list is never `gt` under `lexCmp`. -/
theorem lexCmp_nil_ne_gt (cmp : α → α → Ordering) :
    ∀ l : List α, lexCmp cmp [] l ≠ .gt := by
  intro l
  cases l <;> simp [lexCmp]

/-- `lexCmp` detects equality. -/
theorem lexCmp_eq_iff {cmp : α → α → Ordering} (h : LawfulCmp cmp) :
    ∀ l1 l2, lexCmp cmp l1 l2 = .eq ↔ l1 = l2
  | [], [] => by simp [lexCmp]
  | [], _ :: _ => by simp [lexCmp]
  | _ :: _, [] => by simp [lexCmp]
  | x :: xs, y :: ys => by
    simp only [lexCmp]
    cases hxy : cmp x y with
    | eq =>
      have hx := (h.eq_iff x y).mp hxy
      subst hx
      simpa using lexCmp_eq_iff h xs ys
    | lt =>
      constructor
      · intro hc
        cases hc
      · intro hc
        injection hc with hh _
        subst hh
        rw [(h.eq_iff x x).mpr rfl] at hxy
        cases hxy
    | gt =>
      constructor
      · intro hc
        cases hc
      · intro hc
        injection hc with hh _
        subst hh
        rw [(h.eq_iff x x).mpr rfl] at hxy
        cases hxy

/-- `lexCmp` is antisymmetric under `Ordering.swap`. -/
theorem lexCmp_swap {cmp : α → α → Ordering} (h : LawfulCmp cmp) :
    ∀ l1 l2, lexCmp cmp l2 l1 = (lexCmp cmp l1 l2).swap
  | [], [] => rfl
  | [], _ :: _ => rfl
  | _ :: _, [] => rfl
  | x :: xs, y :: ys => by
    simp only [lexCmp]
    rw [h.cmp_swap x y]
    cases hxy : cmp x y with
    | eq => simpa [Ordering.swap] using lexCmp_swap h xs ys
    | lt => simp [Ordering.swap]
    | gt => simp [Ordering.swap]

/-- Transitivity of the `≤` induced by `lexCmp`. -/
theorem lexCmp_le_trans {cmp : α → α → Ordering} (h : LawfulCmp cmp) :
    ∀ l1 l2 l3, lexCmp cmp l1 l2 ≠ .gt → lexCmp cmp l2 l3 ≠ .gt →
      lexCmp cmp l1 l3 ≠ .gt
  | [], _, l3, _, _ => lexCmp_nil_ne_gt cmp l3
  | _ :: _, [], _, h1, _ => absurd rfl h1
  | _ :: _, _ :: _, [], _, h2 => absurd rfl h2
  | x :: xs, y :: ys, z :: zs, h1, h2 => by
    simp only [lexCmp] at h1 h2 ⊢
    cases hxy : cmp x y with
    | gt =>
      rw [hxy] at h1
      exact absurd rfl h1
    | eq =>
      have hx := (h.eq_iff x y).mp hxy
      subst hx
      rw [hxy] at h1
      cases hxz : cmp x z with
      | lt => simp
      | gt =>
        rw [hxz] at h2
        exact absurd rfl h2
      | eq =>
        rw [hxz] at h2
        exact lexCmp_le_trans h xs ys zs h1 h2
    | lt =>
      cases hyz : cmp y z with
      | gt =>
        rw [hyz] at h2
        exact absurd rfl h2
      | eq =>
        have hy := (h.eq_iff y z).mp hyz
        have hxz : cmp x z = .lt := by
          rw [← hy]
          exact hxy
        rw [hxz]
        simp
      | lt =>
        have hxz : cmp x z = .lt := h.lt_le hxy (by rw [hyz]; simp)
        rw [hxz]
        simp

/-- `lexCmp` of a lawful comparison is lawful. -/
theorem lawful_lexCmp {cmp : α → α → Ordering} (h : LawfulCmp cmp) :
    LawfulCmp (lexCmp cmp) :=
  ⟨lexCmp_eq_iff h, fun a b => lexCmp_swap h a b, lexCmp_le_trans h⟩

/-- `strCmp` is a lawful comparison. -/
theorem lawful_strCmp : LawfulCmp strCmp := by
  have hl := lawful_lexCmp lawful_charCmp
  refine ⟨?_, ?_, ?_⟩
  · intro a b
    unfold strCmp
    rw [hl.eq_iff]
    constructor
    · intro hd
      exact congrArg String.mk hd
    · intro hd
      rw [hd]
  · intro a b
    exact hl.cmp_swap a.data b.data
  · intro a b c
    exact hl.le_trans a.data b.data c.data

/-- `argsCmp` is a lawful comparison. -/
theorem lawful_argsCmp : LawfulCmp argsCmp :=
  lawful_lexCmp lawful_strCmp

/-- `flagCmp` is a lawful comparison. -/
theorem lawful_flagCmp : LawfulCmp flagCmp := by
  refine ⟨?_, ?_, ?_⟩
  · intro x y
    unfold flagCmp
    cases hf : strCmp x.flag y.flag with
    | eq =>
      have h1 := (lawful_strCmp.eq_iff x.flag y.flag).mp hf
      cases x
      cases y
      simp only at h1
      subst h1
      simpa using (lawful_argsCmp.eq_iff _ _)
    | lt =>
      constructor
      · intro hc; cases hc
      · intro hc
        rw [hc, (lawful_strCmp.eq_iff _ _).mpr rfl] at hf
        cases hf
    | gt =>
      constructor
      · intro hc; cases hc
      · intro hc
        rw [hc, (lawful_strCmp.eq_iff _ _).mpr rfl] at hf
        cases hf
  · intro x y
    unfold flagCmp
    rw [lawful_strCmp.cmp_swap x.flag y.flag]
    cases hf : strCmp x.flag y.flag with
    | eq => simpa [Ordering.swap] using lawful_argsCmp.cmp_swap x.args y.args
    | lt => simp [Ordering.swap]
    | gt => simp [Ordering.swap]
  · intro x y z h1 h2
    unfold flagCmp at h1 h2 ⊢
    cases hxy : strCmp x.flag y.flag with
    | gt => rw [hxy] at h1; exact absurd rfl h1
    | eq =>
      have hx := (lawful_strCmp.eq_iff _ _).mp hxy
      rw [hxy] at h1
      cases hxz : strCmp x.flag z.flag with
      | lt => simp
      | gt =>
        rw [hx] at hxz
        rw [hxz] at h2
        exact absurd rfl h2
      | eq =>
        rw [hx] at hxz
        rw [hxz] at h2
        exact lawful_argsCmp.le_trans _ _ _ h1 h2
    | lt =>
      cases hyz : strCmp y.flag z.flag with
      | gt => rw [hyz] at h2; exact absurd rfl h2
      | eq =>
        have hy := (lawful_strCmp.eq_iff _ _).mp hyz
        rw [← hy, hxy]
        simp
      | lt =>
        have hxz : strCmp x.flag z.flag = .lt :=
          lawful_strCmp.lt_le hxy (by rw [hyz]; simp)
        rw [hxz]
        simp

instance : IsTotal InstallFlag flagLe := by
  constructor
  intro a b
  unfold flagLe
  cases hab : flagCmp a b with
  | lt => left; simp
  | eq => left; simp
  | gt =>
    right
    rw [lawful_flagCmp.cmp_swap a b, hab]
    simp [Ordering.swap]

instance : IsTrans InstallFlag flagLe :=
  ⟨fun a b c => lawful_flagCmp.le_trans a b c⟩

instance : IsAntisymm InstallFlag flagLe := by
  constructor
  intro a b h1 h2
  unfold flagLe at h1 h2
  rw [lawful_flagCmp.cmp_swap a b] at h2
  apply (lawful_flagCmp.eq_iff a b).mp
  cases hab : flagCmp a b with
  | eq => rfl
  | gt => exact absurd hab h1
  | lt =>
    rw [hab] at h2
    exact absurd rfl h2

/-- `sortFlags` sorts. -/
theorem sortFlags_sorted (l : List InstallFlag) :
    List.Sorted flagLe (sortFlags l) :=
  List.sorted_insertionSort flagLe l

/-- `sortFlags` permutes. -/
theorem sortFlags_perm (l : List InstallFlag) : (sortFlags l).Perm l :=
  List.perm_insertionSort flagLe l

/-- Two flag lists with the same elements sort identically: the sorted
order is the unique `flagLe`-sorted permutation. -/
theorem sortFlags_eq_of_perm {l1 l2 : List InstallFlag} (h : l1.Perm l2) :
    sortFlags l1 = sortFlags l2 :=
  List.eq_of_perm_of_sorted
    ((sortFlags_perm l1).trans (h.trans (sortFlags_perm l2).symm))
    (sortFlags_sorted l1) (sortFlags_sorted l2)

/-- `processSet` on an empty set: the `continue` before the assert. -/
theorem processSet_of_empty (outcome : Install → Bool)
    (mtime : String → Option Nat) {s : InstallSet} (h : s.installs = []) :
    processSet outcome mtime s = ⟨[], false, true⟩ := by
  unfold processSet
  simp [h]

/-- `processSet` on an up-to-date set with no local request: the whole set
is skipped. -/
theorem processSet_of_skip (outcome : Install → Bool)
    (mtime : String → Option Nat) {s : InstallSet}
    (hne : s.installs.isEmpty = false)
    (h : (computeUpToDate mtime s && !s.any_local) = true) :
    processSet outcome mtime s = ⟨[], false, true⟩ := by
  unfold processSet
  simp [hne, h]

/-- `processSet` when the set is not skipped: the install loop runs and the
marker is written iff the loop completed and `any_remote && src.is_some()`. -/
theorem processSet_of_run (outcome : Install → Bool)
    (mtime : String → Option Nat) {s : InstallSet}
    (hne : s.installs.isEmpty = false)
    (h : (computeUpToDate mtime s && !s.any_local) = false) :
    processSet outcome mtime s =
      ⟨(runSetInstalls outcome (computeUpToDate mtime s) s.installs).1,
       (runSetInstalls outcome (computeUpToDate mtime s) s.installs).2 &&
         s.any_remote && s.src.isSome,
       (runSetInstalls outcome (computeUpToDate mtime s) s.installs).2⟩ := by
  unfold processSet
  simp [hne, h]

/-- C4: an install set is up to date only if it has a remote request and an
origin path, and then exactly when both the origin's and the marker's
modification times are readable and the marker's mtime is strictly newer
than the origin's; a missing timestamp, a missing origin, or the absence of
remote requests all yield "not up to date". -/
theorem c4_up_to_date_iff (mtime : String → Option Nat) (s : InstallSet) :
    computeUpToDate mtime s = true ↔
      (s.any_remote = true ∧ ∃ src, s.src = some src ∧
        ∃ a b, mtime src = some a ∧ mtime s.builtPath = some b ∧ a < b) := by
  unfold computeUpToDate
  cases har : s.any_remote with
  | false => simp
  | true =>
    simp only [Bool.not_true, Bool.false_eq_true, if_false, true_and]
    cases hsrc : s.src with
    | none => simp
    | some src =>
      cases hm1 : mtime src with
      | none => simp [hm1]
      | some a =>
        cases hm2 : mtime s.builtPath with
        | none => simp [hm1, hm2]
        | some b => simp [hm1, hm2]

/-- C10: for a non-empty install set the `assert!(any_local || any_remote)`
in `run_from_strs` cannot fail; moreover a request is classified local
exactly when its flags contain `--path`, and remote is the complement of
local. -/
theorem c10_assert_never_fails (s : InstallSet) (h : s.installs ≠ []) :
    (s.any_local || s.any_remote) = true ∧
      (∀ i : Install, i.is_remote = !i.is_local) ∧
      (∀ i : Install, i.is_local = true ↔ ∃ fl ∈ i.flags, fl.flag = "--path") := by
  refine ⟨?_, fun i => rfl, fun i => ?_⟩
  · match hs : s.installs, h with
    | i :: rest, _ =>
      cases hloc : i.is_local with
      | true =>
        have : s.any_local = true := by
          simp [InstallSet.any_local, hs, List.any_cons, hloc]
        simp [this]
      | false =>
        have : s.any_remote = true := by
          simp [InstallSet.any_remote, hs, List.any_cons, Install.is_remote, hloc]
        simp [this]
  · simp [Install.is_local, List.any_eq_true]

/-- Witness for C10 at a concrete one-request set. -/
theorem c10_assert_never_fails_witness :
    (InstallSet.any_local ⟨"bin", none, [⟨"cargo-web", []⟩]⟩ ||
      InstallSet.any_remote ⟨"bin", none, [⟨"cargo-web", []⟩]⟩) = true :=
  (c10_assert_never_fails ⟨"bin", none, [⟨"cargo-web", []⟩]⟩ (by decide)).1

/-- C1 counterexample: in a set of two requests where the first fails, the
second request is never attempted, and a whole second install set is never
attempted either — the `?` on `install.install(context)` aborts the run,
contradicting the claim that the remaining targets still proceed. -/
theorem c1_counterexample :
    processSets (fun i => i.name == "ok") (fun _ => none)
        [⟨"bin", none, [⟨"fail", []⟩, ⟨"ok", []⟩]⟩,
         ⟨"bin", none, [⟨"ok2", []⟩]⟩] =
      ([⟨"fail", []⟩], false) ∧
    (⟨"ok", []⟩ : Install) ∉
      (processSets (fun i => i.name == "ok") (fun _ => none)
        [⟨"bin", none, [⟨"fail", []⟩, ⟨"ok", []⟩]⟩,
         ⟨"bin", none, [⟨"ok2", []⟩]⟩]).1 ∧
    (⟨"ok2", []⟩ : Install) ∉
      (processSets (fun i => i.name == "ok") (fun _ => none)
        [⟨"bin", none, [⟨"fail", []⟩, ⟨"ok", []⟩]⟩,
         ⟨"bin", none, [⟨"ok2", []⟩]⟩]).1 := by
  refine ⟨rfl, ?_, ?_⟩ <;> decide

/-- C1 amended: a fatal failure of one request aborts everything after it —
the remaining requests of the same install set are not attempted and the
remaining install sets are not processed; the error propagates out of
`run_from_strs`. -/
theorem c1_failure_stops_processing :
    (∀ (outcome : Install → Bool) (u : Bool) (i : Install) (rest : List Install),
        (i.is_remote && u) = false → outcome i = false →
        runSetInstalls outcome u (i :: rest) = ([i], false)) ∧
    (∀ (outcome : Install → Bool) (mtime : String → Option Nat)
        (s : InstallSet) (rest : List InstallSet),
        (processSet outcome mtime s).ok = false →
        processSets outcome mtime (s :: rest) =
          ((processSet outcome mtime s).attempted, false)) := by
  constructor
  · intro o u i rest h1 h2
    simp [runSetInstalls, h1, h2]
  · intro o m s rest h
    simp [processSets, h]

/-- Witness for C1 amended, at a failing request and a failing set. -/
theorem c1_failure_stops_processing_witness :
    runSetInstalls (fun _ => false) false [⟨"a", []⟩, ⟨"b", []⟩] =
        ([⟨"a", []⟩], false) ∧
    processSets (fun _ => false) (fun _ => none)
        [⟨"bin", none, [⟨"a", []⟩]⟩, ⟨"bin2", none, [⟨"b", []⟩]⟩] =
      ([⟨"a", []⟩], false) :=
  ⟨c1_failure_stops_processing.1 (fun _ => false) false ⟨"a", []⟩ [⟨"b", []⟩]
      (by decide) rfl,
   c1_failure_stops_processing.2 (fun _ => false) (fun _ => none)
      ⟨"bin", none, [⟨"a", []⟩]⟩ [⟨"bin2", none, [⟨"b", []⟩]⟩] (by decide)⟩

/-- C2 counterexample: a set with one local and one remote request whose
marker is newer than its origin is up to date, so the remote request is
skipped — yet after the cycle the marker is still written (lib.rs line
297 tests only `any_remote && set.src.is_some()`), contradicting the claim
that the marker is touched only when some remote request actually ran. -/
theorem c2_counterexample :
    processSet (fun _ => true)
        (fun p => if p == "m" then some 1 else if p == "b/.built" then some 2 else none)
        ⟨"b", some "m", [⟨"loc", [⟨"--path", ["p"]⟩]⟩, ⟨"rem", []⟩]⟩ =
      ⟨[⟨"loc", [⟨"--path", ["p"]⟩]⟩], true, true⟩ ∧
    (⟨"rem", []⟩ : Install) ∉
      (processSet (fun _ => true)
        (fun p => if p == "m" then some 1 else if p == "b/.built" then some 2 else none)
        ⟨"b", some "m", [⟨"loc", [⟨"--path", ["p"]⟩]⟩, ⟨"rem", []⟩]⟩).attempted := by
  refine ⟨rfl, ?_⟩
  decide

/-- C2 amended: the marker `<bin>/.built` is written after a cycle iff the
cycle completed without error, the set has at least one remote request and
an origin — regardless of whether any remote request actually ran; it is
left untouched only when the whole set is skipped (up to date with no
local request), when an install fails, or when the set lacks remotes or an
origin. -/
theorem c2_marker_condition (outcome : Install → Bool)
    (mtime : String → Option Nat) (s : InstallSet) :
    (processSet outcome mtime s).markerWritten = true ↔
      ((processSet outcome mtime s).ok = true ∧ s.any_remote = true ∧
        s.src.isSome = true ∧
        ¬(computeUpToDate mtime s = true ∧ s.any_local = false)) := by
  cases hemp : s.installs.isEmpty with
  | true =>
    have h0 : s.installs = [] := List.isEmpty_iff.mp hemp
    have hrem : s.any_remote = false := by simp [InstallSet.any_remote, h0]
    rw [processSet_of_empty outcome mtime h0]
    simp [hrem]
  | false =>
    by_cases hskip : (computeUpToDate mtime s && !s.any_local) = true
    · obtain ⟨h1, h2'⟩ := Bool.and_eq_true_iff.mp hskip
      have h2 : s.any_local = false := by simpa using h2'
      rw [processSet_of_skip outcome mtime hemp hskip]
      simp [h1, h2]
    · have hskip' : (computeUpToDate mtime s && !s.any_local) = false := by
        simpa using hskip
      have hnot : ¬(computeUpToDate mtime s = true ∧ s.any_local = false) := by
        rintro ⟨ha, hb⟩
        rw [ha, hb] at hskip'
        simp at hskip'
      rw [processSet_of_run outcome mtime hemp hskip']
      simp [Bool.and_eq_true_iff, hnot, and_assoc]

/-- C5: under the staleness policy (with every attempted install
succeeding) a local request of a processed set always runs, even when the
set is up to date; a remote request runs exactly when the set is not up to
date; and an up-to-date set with no local request attempts nothing. -/
theorem c5_skip_policy (outcome : Install → Bool) (mtime : String → Option Nat)
    (s : InstallSet) (hall : ∀ i, outcome i = true) :
    (∀ i ∈ s.installs, i.is_local = true →
      i ∈ (processSet outcome mtime s).attempted) ∧
    (∀ i ∈ s.installs, i.is_remote = true →
      (i ∈ (processSet outcome mtime s).attempted ↔
        computeUpToDate mtime s = false)) ∧
    (computeUpToDate mtime s = true → s.any_local = false →
      (processSet outcome mtime s).attempted = []) := by
  cases hemp : s.installs.isEmpty with
  | true =>
    have h0 : s.installs = [] := List.isEmpty_iff.mp hemp
    rw [processSet_of_empty outcome mtime h0]
    simp [h0]
  | false =>
    by_cases hskip : (computeUpToDate mtime s && !s.any_local) = true
    · obtain ⟨h1, h2'⟩ := Bool.and_eq_true_iff.mp hskip
      have h2 : s.any_local = false := by simpa using h2'
      rw [processSet_of_skip outcome mtime hemp hskip]
      refine ⟨?_, ?_, ?_⟩
      · intro i hi hloc
        have hl : s.any_local = true := by
          simp only [InstallSet.any_local, List.any_eq_true]
          exact ⟨i, hi, hloc⟩
        rw [h2] at hl
        cases hl
      · intro i _ _
        simp [h1]
      · intro _ _
        rfl
    · have hskip' : (computeUpToDate mtime s && !s.any_local) = false := by
        simpa using hskip
      rw [processSet_of_run outcome mtime hemp hskip',
        runSetInstalls_all_ok outcome _ hall]
      refine ⟨?_, ?_, ?_⟩
      · intro i hi hloc
        simp [List.mem_filter, hi, Install.is_remote, hloc]
      · intro i hi hrem
        cases hu : computeUpToDate mtime s with
        | true => simp [List.mem_filter, hi, hrem, hu]
        | false => simp [List.mem_filter, hi, hrem, hu]
      · intro h1 h2
        rw [h1, h2] at hskip'
        simp at hskip'

/-- Strings with equal character data are equal. -/
theorem str_ext {a b : String} (h : a.data = b.data) : a = b :=
  congrArg String.mk h

/-- Character data of an appended string. -/
theorem str_data_append (a b : String) : (a ++ b).data = a.data ++ b.data :=
  rfl

/-- String append is associative. -/
theorem str_append_assoc (a b c : String) : a ++ b ++ c = a ++ (b ++ c) :=
  str_ext (by simp [str_data_append, List.append_assoc])

/-- The empty string is a right unit. -/
theorem str_append_empty (a : String) : a ++ "" = a :=
  str_ext (by simp [str_data_append])

/-- The empty string is a left unit. -/
theorem str_empty_append (a : String) : "" ++ a = a :=
  str_ext (by simp [str_data_append])

/-- Folding string append from any accumulator. -/
theorem strFoldl_acc :
    ∀ (l : List String) (t : String),
      l.foldl (fun acc s => acc ++ s) t =
        t ++ l.foldl (fun acc s => acc ++ s) ""
  | [], t => (str_append_empty t).symm
  | s :: l, t => by
    simp only [List.foldl_cons]
    rw [strFoldl_acc l ("" ++ s), strFoldl_acc l (t ++ s), str_append_assoc,
      str_empty_append]

/-- `String.join` unfolds on a cons. -/
theorem strJoin_cons (s : String) (l : List String) :
    String.join (s :: l) = s ++ String.join l := by
  simp only [String.join, List.foldl_cons]
  rw [strFoldl_acc l ("" ++ s), str_empty_append]

/-- A left fold that appends a rendering of each element equals the
accumulator followed by the join of the renderings. -/
theorem strFoldl_append (g : α → String) :
    ∀ (l : List α) (t : String),
      l.foldl (fun acc a => acc ++ g a) t = t ++ String.join (l.map g)
  | [], t => by
    simp only [List.foldl_nil, List.map_nil]
    exact (str_append_empty t).symm
  | a :: l, t => by
    simp only [List.foldl_cons, List.map_cons]
    rw [strFoldl_append g l (t ++ g a), strJoin_cons, ← str_append_assoc]

/-- Witness for C5 at a concrete set with one local and one remote request
over an unreadable filesystem (not up to date): the local request is
attempted. -/
theorem c5_skip_policy_witness :
    (⟨"loc", [⟨"--path", ["p"]⟩]⟩ : Install) ∈
      (processSet (fun _ => true) (fun _ => none)
        ⟨"b", none, [⟨"loc", [⟨"--path", ["p"]⟩]⟩, ⟨"rem", []⟩]⟩).attempted :=
  (c5_skip_policy (fun _ => true) (fun _ => none)
      ⟨"b", none, [⟨"loc", [⟨"--path", ["p"]⟩]⟩, ⟨"rem", []⟩]⟩
      (fun _ => rfl)).1 ⟨"loc", [⟨"--path", ["p"]⟩]⟩ (by decide) (by decide)

/-- A hex digit of a value below 16 is a lowercase hexadecimal character. -/
theorem hexDigit_mem (m : Nat) (hm : m < 16) :
    hexDigit m ∈ "0123456789abcdef".data := by
  interval_cases m <;> decide

/-- `hex16` always yields exactly 16 characters. -/
theorem hex16_length (n : Nat) : (hex16 n).length = 16 := by
  simp [hex16, String.length]

/-- Every character of `hex16` is a lowercase hexadecimal digit. -/
theorem hex16_chars (n : Nat) :
    ∀ c ∈ (hex16 n).data, c ∈ "0123456789abcdef".data := by
  intro c hc
  simp only [hex16, List.mem_map] at hc
  obtain ⟨k, _, rfl⟩ := hc
  exact hexDigit_mem _ (Nat.mod_lt _ (by norm_num))

/-- C3: fingerprinting is a deterministic pure function of the request —
two requests with the same name whose (sorted) flag lists arose from the
same collection of (flag, args) pairs, in any original order, produce the
same cache key, and that key is a fixed-width 16-character lowercase-hex
rendering of a 64-bit hash. -/
theorem c3_fingerprint_deterministic (name : String)
    {fl1 fl2 : List InstallFlag} (h : fl1.Perm fl2) :
    fingerprint ⟨name, sortFlags fl1⟩ = fingerprint ⟨name, sortFlags fl2⟩ ∧
    (fingerprint ⟨name, sortFlags fl1⟩).length = 16 ∧
    (∀ c ∈ (fingerprint ⟨name, sortFlags fl1⟩).data,
      c ∈ "0123456789abcdef".data) ∧
    fingerprintHash ⟨name, sortFlags fl1⟩ < 2 ^ 64 := by
  refine ⟨?_, hex16_length _, hex16_chars _, ?_⟩
  · rw [sortFlags_eq_of_perm h]
  · unfold fingerprintHash siphash24
    exact Nat.mod_lt _ (by norm_num [M64])

/-- Witness for C3: the same two flags in either order fingerprint
identically. -/
theorem c3_fingerprint_deterministic_witness :
    ([⟨"--debug", []⟩, ⟨"--force", []⟩] : List InstallFlag).Perm
        [⟨"--force", []⟩, ⟨"--debug", []⟩] ∧
    fingerprint ⟨"cargo-web", sortFlags [⟨"--debug", []⟩, ⟨"--force", []⟩]⟩ =
      fingerprint ⟨"cargo-web", sortFlags [⟨"--force", []⟩, ⟨"--debug", []⟩]⟩ :=
  ⟨List.Perm.swap _ _ _,
   (c3_fingerprint_deterministic "cargo-web" (List.Perm.swap _ _ _)).1⟩

/-- C9 counterexample: arguments are rendered by Rust's `{:?}` (Debug)
formatting — quoted — not verbatim: for `--version ^0.6` the hashed trace
is `cargo install --version "^0.6" -- cargo-web`, which differs from the
claimed concatenation with verbatim arguments. -/
theorem c9_counterexample :
    traceForHash ⟨"cargo-web", [⟨"--version", ["^0.6"]⟩]⟩ =
      "cargo install --version \"^0.6\" -- cargo-web" ∧
    traceForHash ⟨"cargo-web", [⟨"--version", ["^0.6"]⟩]⟩ ≠
      traceClaimVerbatim ⟨"cargo-web", [⟨"--version", ["^0.6"]⟩]⟩ := by
  constructor
  · decide
  · decide

/-- C9 amended: the hashed string is exactly the concatenation, in order,
of the literal `cargo install`, each sorted (flag, args) pair rendered as
`" <flag> <arg>..."` with every argument in Rust Debug (quoted) form, the
literal `" -- "`, and the target name — the destination-dependent `--root`
portion and the forced `--color always` flag (both appended after hashing)
are excluded. -/
theorem c9_trace_shape (i : Install) : traceForHash i = traceSpecDebug i := by
  unfold traceForHash traceSpecDebug traceBase
  simp only [str_append_assoc, strFoldl_append]

/-- Feeding any character stream from any buffer state filters exactly the
lines it completes. -/
theorem feedChunk_spec :
    ∀ (cs cur : List Char) (out : List (List Char)),
      finishStream (feedChunk (cur, out) cs) =
        out ++ (splitLinesAux cur cs).filter (fun l => !suppressLine l)
  | [], cur, out => by
    simp only [feedChunk, List.foldl_nil, finishStream, splitLinesAux]
    cases hcur : cur.isEmpty with
    | true => simp
    | false =>
      simp only [Bool.false_eq_true, if_false, List.filter_cons, List.filter_nil]
      unfold emitLine
      cases hsup : suppressLine cur with
      | true => simp
      | false => simp
  | c :: cs, cur, out => by
    simp only [feedChunk, List.foldl_cons, splitLinesAux]
    by_cases hc : c = '\n'
    · subst hc
      have lhs : List.foldl feedChar (feedChar (cur, out) '\n') cs =
          feedChunk ([], emitLine out (stripCR cur)) cs := rfl
      have rhs : (if ('\n' : Char) = '\n' then stripCR cur :: splitLinesAux [] cs
          else splitLinesAux (cur ++ ['\n']) cs) =
          stripCR cur :: splitLinesAux [] cs := if_pos rfl
      rw [lhs, rhs, feedChunk_spec cs [] (emitLine out (stripCR cur))]
      simp only [List.filter_cons]
      unfold emitLine
      cases hsup : suppressLine (stripCR cur) with
      | true => simp [hsup]
      | false => simp [hsup]
    · have hstep : feedChar (cur, out) c = (cur ++ [c], out) := by
        unfold feedChar
        rw [if_neg hc]
      rw [hstep,
        show (List.foldl feedChar (cur ++ [c], out) cs : _) =
          feedChunk (cur ++ [c], out) cs from rfl,
        feedChunk_spec cs (cur ++ [c]) out, if_neg hc]

/-- Chunk boundaries are invisible: feeding two chunks equals feeding
their concatenation. -/
theorem feedChunk_append (st : List Char × List (List Char))
    (a b : List Char) :
    feedChunk st (a ++ b) = feedChunk (feedChunk st a) b := by
  unfold feedChunk
  exact List.foldl_append feedChar st a b

/-- Processing a chunk list is processing the joined stream. -/
theorem runChunks_eq_join (chunks : List (List Char)) :
    runChunks chunks = feedChunk ([], []) chunks.flatten := by
  unfold runChunks
  generalize ([], []) = st
  induction chunks generalizing st with
  | nil => simp [feedChunk]
  | cons a rest ih =>
    simp only [List.foldl_cons, List.flatten_cons, feedChunk_append]
    exact ih (feedChunk st a)

/-- C7: for every chunking of the diagnostic stream, the filtered output
is exactly the stream's lines that match no suppression rule — a line is
suppressed iff it ends with some rule's suffix and starts with the rule's
plain or ANSI-colored prefix — in original order, nothing added or
dropped. -/
theorem c7_filter_exact (chunks : List (List Char)) :
    filter_stderr chunks =
      (splitLines chunks.flatten).filter
        (fun line => !(IGNORE.any (fun ig =>
          ig.post.data.isSuffixOf line &&
            (ig.pre.data.isPrefixOf line || ig.prec.data.isPrefixOf line)))) := by
  unfold filter_stderr splitLines
  rw [runChunks_eq_join]
  exact feedChunk_spec chunks.flatten [] []

/-- C8 counterexample: a stream that ends in an unterminated fragment
matching a suppression rule (here the `    Finished ` rule, whose suffix is
empty) has that final fragment dropped, not forwarded as-is: the filter
treats the final fragment like any completed line. -/
theorem c8_counterexample :
    ("    Finished dev".data ≠ ([] : List Char)) ∧
    filter_stderr ["    Finished dev".data] = [] := by
  refine ⟨by decide, by decide⟩

/-- A stream without newlines is a single (unterminated) line. -/
theorem splitLinesAux_no_newline :
    ∀ (s cur : List Char), '\n' ∉ s →
      splitLinesAux cur s = if (cur ++ s).isEmpty then [] else [cur ++ s]
  | [], cur, _ => by simp [splitLinesAux]
  | c :: rest, cur, h => by
    have hc : ¬(c = '\n') := fun hh => h (hh ▸ List.mem_cons_self c rest)
    simp only [splitLinesAux, if_neg hc]
    rw [splitLinesAux_no_newline rest (cur ++ [c])
      (fun hm => h (List.mem_cons_of_mem _ hm))]
    simp [List.append_assoc]

/-- C8 amended: the final unterminated fragment is forwarded iff it does
not match a suppression rule — it is run through the same per-line filter,
not forwarded unconditionally. -/
theorem c8_final_fragment_filtered (s : List Char) (hnl : '\n' ∉ s)
    (hne : s ≠ []) :
    filter_stderr [s] = if suppressLine s then [] else [s] := by
  unfold filter_stderr runChunks
  simp only [List.foldl_cons, List.foldl_nil]
  rw [show (feedChunk (([], []) : List Char × List (List Char)) s : _) =
        feedChunk ([], []) s from rfl,
    feedChunk_spec s [] [], splitLinesAux_no_newline s [] hnl]
  have hemp : s.isEmpty = false := by
    cases s with
    | nil => exact absurd rfl hne
    | cons a t => rfl
  simp only [List.nil_append, hemp, Bool.false_eq_true, if_false,
    List.filter_cons, List.filter_nil]
  cases hsup : suppressLine s with
  | true => simp
  | false => simp

/-- Witness for C8 amended at a concrete non-matching fragment. -/
theorem c8_final_fragment_filtered_witness :
    filter_stderr ["abc".data] =
      if suppressLine "abc".data then [] else ["abc".data] :=
  c8_final_fragment_filtered "abc".data (by decide) (by decide)

/-- Every install produced by `buildSets` has a sorted flag list. -/
theorem buildSets_flags_sorted (canon : String → Except String String)
    (home : String) (manifestSets : List InstallSet) (st : ParseState)
    (sets : List InstallSet)
    (h : buildSets canon home manifestSets st = .ok sets) :
    ∀ set ∈ sets, ∀ i ∈ set.installs, List.Sorted flagLe i.flags := by
  unfold buildSets at h
  repeat'
    first
    | split at h
    | simp only [] at h
  all_goals try cases h
  all_goals
    intro set hset i hi
    simp only [List.mem_map] at hset
    obtain ⟨set0, _, rfl⟩ := hset
    simp only [List.mem_map] at hi
    obtain ⟨i0, _, rfl⟩ := hi
    exact sortFlags_sorted _

/-- C6 amended: at the moment its fingerprint is computed, every install
request's flag list is sorted (lines 250 and 255 of lib.rs) — but it is
NOT deduplicated: `Vec::sort` keeps duplicates. -/
theorem c6_flags_sorted (canon : String → Except String String)
    (home : String) (manifestSets : List InstallSet) (args : List String)
    (sets : List InstallSet)
    (h : prepare canon home manifestSets args = .ok (some sets)) :
    ∀ set ∈ sets, ∀ i ∈ set.installs, List.Sorted flagLe i.flags := by
  unfold prepare at h
  cases hp : parseArgs canon args {} with
  | error e =>
    rw [hp] at h
    cases h
  | ok o =>
    rw [hp] at h
    cases o with
    | none => simp at h
    | some st =>
      simp only [] at h
      cases hb : buildSets canon home manifestSets st with
      | error e =>
        rw [hb] at h
        simp at h
      | ok sets2 =>
        rw [hb] at h
        simp only [Except.ok.injEq, Option.some.injEq] at h
        subst h
        exact buildSets_flags_sorted canon home manifestSets st sets2 hb

/-- Witness for C6 amended: the flag list produced for
`--force --force foo` is sorted. -/
theorem c6_flags_sorted_witness :
    List.Sorted flagLe [(⟨"--force", []⟩ : InstallFlag), ⟨"--force", []⟩,
      ⟨"--target-dir", ["/h/.cargo/local-install/target"]⟩] :=
  c6_flags_sorted (fun s => Except.ok s) "/h" [] ["--force", "--force", "foo"]
    [⟨"bin", none, [⟨"foo",
      [⟨"--force", []⟩, ⟨"--force", []⟩,
       ⟨"--target-dir", ["/h/.cargo/local-install/target"]⟩]⟩]⟩]
    rfl
    ⟨"bin", none, [⟨"foo",
      [⟨"--force", []⟩, ⟨"--force", []⟩,
       ⟨"--target-dir", ["/h/.cargo/local-install/target"]⟩]⟩]⟩
    (by simp)
    ⟨"foo", [⟨"--force", []⟩, ⟨"--force", []⟩,
      ⟨"--target-dir", ["/h/.cargo/local-install/target"]⟩]⟩
    (by simp)

/-- C6 counterexample: supplying `--force` twice leaves two equal
(flag, args) pairs in the flag list at fingerprint time — the pipeline
sorts but never deduplicates, contradicting the claimed deduplication. -/
theorem c6_counterexample :
    prepare (fun s => Except.ok s) "/h" [] ["--force", "--force", "foo"] =
      .ok (some [⟨"bin", none, [⟨"foo",
        [⟨"--force", []⟩, ⟨"--force", []⟩,
         ⟨"--target-dir", ["/h/.cargo/local-install/target"]⟩]⟩]⟩]) ∧
    ¬ List.Nodup [(⟨"--force", []⟩ : InstallFlag), ⟨"--force", []⟩,
        ⟨"--target-dir", ["/h/.cargo/local-install/target"]⟩] := by
  refine ⟨rfl, by decide⟩

end CargoLocalInstall
